import Mathlib

/-!
Shallow embedding of `src/browser_extension/background.js` of the
cleanmaster repository: a browser-resident observer that relays download
notifications to a companion process at `http://localhost:8080`.

The script consists of one helper, `sendToCleanMaster(url, filename)`,
and two event handlers: a `chrome.webRequest.onBeforeRequest` listener
and a `chrome.downloads.onDeterminingFilename` listener.  The embedding
models the observable behaviour of one handler invocation: the list of
side effects it produces (fetch attempts and console-error logs), the
value it returns to the host, and whether anything is thrown out of it.
The nondeterministic outcome of the single `fetch` call is passed in
explicitly as a `FetchOutcome`.
-/

/-- Model of the JavaScript `String.prototype.split` with a single-character
separator, at the level of character lists.  JS `s.split(sep)` returns the
(always non-empty) list of maximal groups between separator occurrences,
keeping empty groups: `"".split('/') = [""]`, `"a/".split('/') = ["a",""]`. -/
def jsSplitChar (sep : Char) : List Char → List (List Char)
  | [] => [[]]
  | c :: rest =>
    if c = sep then [] :: jsSplitChar sep rest
    else
      match jsSplitChar sep rest with
      | [] => [[c]]
      | group :: groups => (c :: group) :: groups

/-- The filename extraction of the request-observation path, line 30 of
`background.js`: `const filename = url.split('/').pop();`.  JS `.pop()` on
the non-empty array returned by `split` yields its last element. -/
def extractFilename (url : String) : String :=
  String.mk ((jsSplitChar '/' url.data).getLastD [])

/-- The JSON body sent by `sendToCleanMaster`:
`JSON.stringify({ type: 'download', url: url, filename: filename })`. -/
structure Notification where
  type : String
  url : String
  filename : String
deriving DecidableEq

/-- One `fetch(endpoint, { method, headers, body })` call as issued by
`sendToCleanMaster`, lines 4-14 of `background.js`. -/
structure FetchRequest where
  url : String
  method : String
  contentType : String
  body : Notification
deriving DecidableEq

/-- Observable side effects of a handler invocation: a transmission
attempt (a `fetch` call, counted whether or not it later succeeds) or a
`console.error` log.  `console.error(msg, err)` with a second argument is
modelled by `extra = some err`. -/
inductive Effect where
  | fetchAttempt (req : FetchRequest)
  | consoleError (msg : String) (extra : Option String)
deriving DecidableEq

/-- Outcome of the single `fetch` call: either the promise resolves with a
response carrying some HTTP status, or it rejects at the transport level
(endpoint unreachable, connection refused, ...) with some error. -/
inductive FetchOutcome where
  | response (status : Nat)
  | rejected (error : String)
deriving DecidableEq

/-- The JS `response.ok`: status in the range 200-299. -/
def responseOk (status : Nat) : Bool :=
  decide (200 ≤ status) && decide (status < 300)

/-- The fixed endpoint string of line 4 of `background.js`. -/
def cleanMasterEndpoint : String := "http://localhost:8080"

/-- The fixed log message of lines 17 and 20 of `background.js`. -/
def errorLogMessage : String := "Ошибка при отправке в CleanMaster"

/-- The request `sendToCleanMaster` issues for the given `url` and
`filename`: POST to the fixed endpoint, JSON content type, and the
three-field body of lines 9-13 of `background.js`. -/
def cleanMasterRequest (url filename : String) : FetchRequest :=
  { url := cleanMasterEndpoint
    method := "POST"
    contentType := "application/json"
    body := { type := "download", url := url, filename := filename } }

/-- Result of running `sendToCleanMaster` to completion: the effects it
produced, and what (if anything) escaped the function as a thrown error;
`thrown = none` means its promise resolves normally. -/
structure SendResult where
  effects : List Effect
  thrown : Option String
deriving DecidableEq

/-- The `sendToCleanMaster` function, lines 2-22 of `background.js`, run
against a given outcome of its one `fetch` call.  The whole body is
wrapped in `try`/`catch`: if the fetch resolves and `response.ok` fails,
`console.error` is called with the fixed message; if the fetch rejects,
the `catch` block calls `console.error` with the message and the error.
Nothing is rethrown and there is no second fetch. -/
def sendToCleanMaster (url filename : String) (outcome : FetchOutcome) : SendResult :=
  match outcome with
  | FetchOutcome.response status =>
    if responseOk status then
      { effects := [Effect.fetchAttempt (cleanMasterRequest url filename)]
        thrown := none }
    else
      { effects := [Effect.fetchAttempt (cleanMasterRequest url filename),
                    Effect.consoleError errorLogMessage none]
        thrown := none }
  | FetchOutcome.rejected err =>
      { effects := [Effect.fetchAttempt (cleanMasterRequest url filename),
                    Effect.consoleError errorLogMessage (some err)]
        thrown := none }

/-- The fields of the `details` object the `onBeforeRequest` listener
reads: `details.type` and `details.url`. -/
structure RequestDetails where
  type : String
  url : String
deriving DecidableEq

/-- A `chrome.webRequest.BlockingResponse` a blocking listener could
return to cancel or redirect the request. -/
structure BlockingResponse where
  cancel : Bool
  redirectUrl : Option String
deriving DecidableEq

/-- Result of one invocation of the `onBeforeRequest` listener: its
effects and the value it returns to the host (`none` models the JS
function falling off the end, i.e. returning `undefined`). -/
structure RequestHandlerResult where
  effects : List Effect
  returned : Option BlockingResponse
deriving DecidableEq

/-- The `chrome.webRequest.onBeforeRequest` listener, lines 25-34 of
`background.js`: if `details.type` is `'xmlhttprequest'` or
`'main_frame'` it calls `sendToCleanMaster(url, url.split('/').pop())`;
otherwise it does nothing.  It has no `return` statement. -/
def onBeforeRequest (details : RequestDetails) (outcome : FetchOutcome) :
    RequestHandlerResult :=
  if details.type = "xmlhttprequest" ∨ details.type = "main_frame" then
    { effects := (sendToCleanMaster details.url (extractFilename details.url) outcome).effects
      returned := none }
  else
    { effects := []
      returned := none }

/-- The URL filter the `onBeforeRequest` listener is registered with,
line 36 of `background.js`. -/
def onBeforeRequestFilterUrls : List String := ["<all_urls>"]

/-- The extra-info spec the `onBeforeRequest` listener is registered
with, line 37 of `background.js`. -/
def onBeforeRequestExtraInfoSpec : List String := ["blocking"]

/-- The fields of the `downloadItem` object the `onDeterminingFilename`
listener reads: `downloadItem.url` and `downloadItem.filename`. -/
structure DownloadItem where
  url : String
  filename : String
deriving DecidableEq

/-- Result of one invocation of the `onDeterminingFilename` listener:
its effects and the list of filenames it passed to the `suggest`
callback (the listener never calls `suggest`, so this is how overriding
the host's filename choice would show up). -/
structure DownloadHandlerResult where
  effects : List Effect
  suggestCalls : List String
deriving DecidableEq

/-- The `chrome.downloads.onDeterminingFilename` listener, lines 41-46
of `background.js`: it calls
`sendToCleanMaster(downloadItem.url, downloadItem.filename)` and never
invokes `suggest`. -/
def onDeterminingFilename (item : DownloadItem) (outcome : FetchOutcome) :
    DownloadHandlerResult :=
  { effects := (sendToCleanMaster item.url item.filename outcome).effects
    suggestCalls := [] }

/-- The transmission attempts among a list of effects. -/
def attempts (effects : List Effect) : List FetchRequest :=
  effects.filterMap fun e =>
    match e with
    | Effect.fetchAttempt req => some req
    | Effect.consoleError _ _ => none

/-- Strip a leading `http://` scheme from a character list. -/
def stripHttpScheme (cs : List Char) : List Char :=
  match cs with
  | 'h' :: 't' :: 't' :: 'p' :: ':' :: '/' :: '/' :: rest => rest
  | other => other

/-- The characters strictly before the first occurrence of `stop`. -/
def takeUntilChar (stop : Char) : List Char → List Char
  | [] => []
  | c :: rest => if c = stop then [] else c :: takeUntilChar stop rest

/-- The suffix starting at the first occurrence of `stop` (empty if
`stop` does not occur). -/
def dropUntilChar (stop : Char) : List Char → List Char
  | [] => []
  | c :: rest => if c = stop then c :: rest else dropUntilChar stop rest

/-- The value of one decimal digit character. -/
def decDigit (c : Char) : Option Nat :=
  if c.isDigit then some (c.toNat - 48) else none

/-- Accumulate a decimal number over a character list. -/
def decNatAux (acc : Nat) : List Char → Option Nat
  | [] => some acc
  | c :: rest =>
    match decDigit c with
    | some d => decNatAux (acc * 10 + d) rest
    | none => none

/-- Parse a non-empty all-digit character list as a decimal number. -/
def decNat (cs : List Char) : Option Nat :=
  match cs with
  | [] => none
  | _ => decNatAux 0 cs

/-- The host component of an `http://` URL: the authority up to the
first `:` or `/`. -/
def urlHost (s : String) : String :=
  String.mk (takeUntilChar ':' (takeUntilChar '/' (stripHttpScheme s.data)))

/-- The port component of an `http://` URL, when an explicit
`:<digits>` follows the host. -/
def urlPort (s : String) : Option Nat :=
  match dropUntilChar ':' (takeUntilChar '/' (stripHttpScheme s.data)) with
  | ':' :: digits => decNat digits
  | _ => none

/-- The path component of an `http://` URL: everything from the first
`/` after the authority (empty when there is no path). -/
def urlPathPart (s : String) : String :=
  String.mk (dropUntilChar '/' (stripHttpScheme s.data))

/-! ### Helper lemmas -/

theorem jsSplitChar_ne_nil (sep : Char) (s : List Char) : jsSplitChar sep s ≠ [] := by
  cases s with
  | nil => simp [jsSplitChar]
  | cons c rest =>
    simp only [jsSplitChar]
    split
    · simp
    · split <;> simp

theorem jsSplitChar_append_sep (sep : Char) (xs : List Char) :
    jsSplitChar sep (xs ++ [sep]) = jsSplitChar sep xs ++ [[]] := by
  induction xs with
  | nil => simp [jsSplitChar]
  | cons c rest ih =>
    by_cases hc : c = sep
    · simp [jsSplitChar, hc, ih]
    · rcases hrest : jsSplitChar sep rest with _ | ⟨g, gs⟩
      · exact absurd hrest (jsSplitChar_ne_nil sep rest)
      · simp [jsSplitChar, hc, ih, hrest]

theorem jsSplitChar_no_sep (sep : Char) (xs : List Char) (h : ∀ c ∈ xs, c ≠ sep) :
    jsSplitChar sep xs = [xs] := by
  induction xs with
  | nil => rfl
  | cons c rest ih =>
    have hc : c ≠ sep := h c (List.mem_cons_self c rest)
    have hrest := ih fun d hd => h d (List.mem_cons_of_mem c hd)
    simp [jsSplitChar, hc, hrest]

theorem getLastD_append_single {α : Type} (l : List α) (a d : α) :
    (l ++ [a]).getLastD d = a := by
  simp [List.getLastD_eq_getLast?, List.getLast?_concat]

theorem attempts_sendToCleanMaster (url filename : String) (outcome : FetchOutcome) :
    attempts (sendToCleanMaster url filename outcome).effects =
      [cleanMasterRequest url filename] := by
  cases outcome with
  | response status => cases hs : responseOk status <;> simp [sendToCleanMaster, attempts, hs]
  | rejected err => simp [sendToCleanMaster, attempts]

theorem sendToCleanMaster_resolves (url filename : String) (outcome : FetchOutcome) :
    (sendToCleanMaster url filename outcome).thrown = none := by
  cases outcome with
  | response status => cases hs : responseOk status <;> simp [sendToCleanMaster, hs]
  | rejected err => rfl

theorem sendToCleanMaster_effects_ne_nil (url filename : String) (outcome : FetchOutcome) :
    (sendToCleanMaster url filename outcome).effects ≠ [] := by
  cases outcome with
  | response status => cases hs : responseOk status <;> simp [sendToCleanMaster, hs]
  | rejected err => simp [sendToCleanMaster]

/-! ### Claim theorems -/

/-- C1: For every download-determination event, whatever the outcome of
the fetch, exactly one transmission attempt occurs, and its notification
body carries the event's own `url` and `filename` fields unaltered. -/
theorem onDeterminingFilename_single_verbatim_attempt
    (item : DownloadItem) (outcome : FetchOutcome) :
    (attempts (onDeterminingFilename item outcome).effects).map FetchRequest.body =
      [{ type := "download", url := item.url, filename := item.filename }] := by
  have h := attempts_sendToCleanMaster item.url item.filename outcome
  simp [onDeterminingFilename, h, cleanMasterRequest]

/-- C2: For every request-observation event, a transmission attempt
occurs exactly when `details.type` is `'xmlhttprequest'` or
`'main_frame'`; in that case it is the unique attempt and its body's
filename is the last `/`-separated segment of the event's url (the
code's `url.split('/').pop()`); for any other classification the handler
produces no effect at all. -/
theorem onBeforeRequest_allowset_attempt
    (details : RequestDetails) (outcome : FetchOutcome) :
    (attempts (onBeforeRequest details outcome).effects).map FetchRequest.body =
      (if details.type = "xmlhttprequest" ∨ details.type = "main_frame" then
        [{ type := "download", url := details.url, filename := extractFilename details.url }]
      else [])
    ∧ ((onBeforeRequest details outcome).effects = [] ↔
        ¬(details.type = "xmlhttprequest" ∨ details.type = "main_frame")) := by
  by_cases h : details.type = "xmlhttprequest" ∨ details.type = "main_frame"
  · have ha := attempts_sendToCleanMaster details.url (extractFilename details.url) outcome
    have hne := sendToCleanMaster_effects_ne_nil details.url (extractFilename details.url) outcome
    constructor
    · simp [onBeforeRequest, h, ha, cleanMasterRequest]
    · simp [onBeforeRequest, h, hne]
  · constructor
    · simp [onBeforeRequest, h, attempts]
    · simp [onBeforeRequest, h]

/-- C3: Every run of `sendToCleanMaster`, whatever the fetch outcome,
issues exactly one POST (no retry) to the fixed endpoint whose host is
`localhost`, whose port is `8080` and whose path is empty, with content
type `application/json` and the exact three-field body
`{ type := "download", url, filename }`. -/
theorem sendToCleanMaster_single_post_contract
    (url filename : String) (outcome : FetchOutcome) :
    attempts (sendToCleanMaster url filename outcome).effects =
      [cleanMasterRequest url filename]
    ∧ (cleanMasterRequest url filename).method = "POST"
    ∧ (cleanMasterRequest url filename).contentType = "application/json"
    ∧ (cleanMasterRequest url filename).body =
        { type := "download", url := url, filename := filename }
    ∧ urlHost (cleanMasterRequest url filename).url = "localhost"
    ∧ urlPort (cleanMasterRequest url filename).url = some 8080
    ∧ urlPathPart (cleanMasterRequest url filename).url = "" := by
  refine ⟨attempts_sendToCleanMaster url filename outcome, rfl, rfl, rfl, ?_, ?_, ?_⟩
  · show urlHost cleanMasterEndpoint = "localhost"
    decide
  · show urlPort cleanMasterEndpoint = some 8080
    decide
  · show urlPathPart cleanMasterEndpoint = ""
    decide

/-- C4: When the fetch resolves with a non-successful status, the
failure is only logged via `console.error`, nothing is thrown out of
`sendToCleanMaster`, and no second attempt is made: the full effect list
is one fetch attempt followed by one console-error log. -/
theorem sendToCleanMaster_bad_status_logged
    (url filename : String) (status : Nat) (h : responseOk status = false) :
    (sendToCleanMaster url filename (FetchOutcome.response status)).thrown = none
    ∧ (sendToCleanMaster url filename (FetchOutcome.response status)).effects =
        [Effect.fetchAttempt (cleanMasterRequest url filename),
         Effect.consoleError errorLogMessage none] := by
  simp [sendToCleanMaster, h]

theorem sendToCleanMaster_bad_status_logged_witness :
    responseOk 500 = false
    ∧ ((sendToCleanMaster "https://a/b" "b" (FetchOutcome.response 500)).thrown = none
    ∧ (sendToCleanMaster "https://a/b" "b" (FetchOutcome.response 500)).effects =
        [Effect.fetchAttempt (cleanMasterRequest "https://a/b" "b"),
         Effect.consoleError errorLogMessage none]) :=
  ⟨by decide, sendToCleanMaster_bad_status_logged "https://a/b" "b" 500 (by decide)⟩

/-- C5: For every possible fetch outcome — resolution with any status or
rejection with any error — `sendToCleanMaster` resolves without
throwing; a transport-level rejection is caught and only logged, the
effect list being the one attempt followed by the catch-block log with
the error attached. -/
theorem sendToCleanMaster_never_throws (url filename : String) :
    (∀ outcome, (sendToCleanMaster url filename outcome).thrown = none)
    ∧ ∀ err, (sendToCleanMaster url filename (FetchOutcome.rejected err)).effects =
        [Effect.fetchAttempt (cleanMasterRequest url filename),
         Effect.consoleError errorLogMessage (some err)] :=
  ⟨fun outcome => sendToCleanMaster_resolves url filename outcome, fun _ => rfl⟩

/-- C6: Neither handler ever overrides the host's defaults: the
`onBeforeRequest` listener returns no blocking or redirect directive for
any event and any fetch outcome, and the `onDeterminingFilename`
listener never invokes the `suggest` callback. -/
theorem handlers_never_override_host
    (details : RequestDetails) (item : DownloadItem) (o1 o2 : FetchOutcome) :
    (onBeforeRequest details o1).returned = none
    ∧ (onDeterminingFilename item o2).suggestCalls = [] := by
  constructor
  · unfold onBeforeRequest
    split <;> rfl
  · rfl

/-- C7: The request-path filename extraction applied to
`https://example.com/files/report.pdf` yields `report.pdf`. -/
theorem extractFilename_report_pdf :
    extractFilename "https://example.com/files/report.pdf" = "report.pdf" := by
  decide

/-- C8: The request-path filename extraction applied to a url with no
trailing segment — any string ending in `/` — yields the empty string;
in particular it does for `https://example.com/`. -/
theorem extractFilename_trailing_slash_empty (s : String) :
    extractFilename (s ++ "/") = "" ∧ extractFilename "https://example.com/" = "" := by
  refine ⟨?_, by decide⟩
  unfold extractFilename
  rw [String.data_append]
  have hd : ("/" : String).data = ['/'] := rfl
  rw [hd, jsSplitChar_append_sep, getLastD_append_single]

/-- C9: For any url string containing no `/` character at all, the
extraction `url.split('/').pop()` returns the whole url unchanged. -/
theorem extractFilename_no_slash_identity (url : String)
    (h : ∀ c ∈ url.data, c ≠ '/') :
    extractFilename url = url := by
  unfold extractFilename
  rw [jsSplitChar_no_sep '/' url.data h]
  cases url
  rfl

theorem extractFilename_no_slash_identity_witness :
    (∀ c ∈ ("report.pdf" : String).data, c ≠ '/')
    ∧ extractFilename "report.pdf" = "report.pdf" :=
  ⟨by decide, extractFilename_no_slash_identity "report.pdf" (by decide)⟩

/-- C10: The extraction splits the raw url string on `/`, not the URL's
path component, so a query string after the last `/` is kept: for
`https://example.com/report.pdf?x=1` it yields `report.pdf?x=1`, not
`report.pdf`. -/
theorem extractFilename_includes_query :
    extractFilename "https://example.com/report.pdf?x=1" = "report.pdf?x=1"
    ∧ extractFilename "https://example.com/report.pdf?x=1" ≠ "report.pdf" := by
  decide
